import Mathlib

/-!
Verification of the core mechanisms of the problem-upload/analysis server
(`src/server/index.js`): the TTL cache, the CSRF guard, the subject
classifier with its batch-repair mode, and the problem store with its
ownership checks and cache invalidation.  The JavaScript is shallowly
embedded: pure computations become Lean functions, the database and the
cache become explicit state threaded through each handler, calls to the
external AI backend and to the persistence layer's update operation become
oracle parameters recording their outcomes, and `Date.now()` becomes an
explicit `now : Nat` argument (milliseconds).
-/

namespace TeamThirty

/-! ## Definitions -/

/-- Embedding of JavaScript's `String.prototype.trim`: removes whitespace
from both ends of the string.  (Lean's own `String.trim` is extensionally
the same but does not reduce in the kernel, so the embedding works on the
character list directly.) -/
def jsTrim (s : String) : String :=
  String.mk (((s.data.dropWhile Char.isWhitespace).reverse.dropWhile
    Char.isWhitespace).reverse)

/-- Embedding of JavaScript's `String.prototype.startsWith`. -/
def jsStartsWith (s p : String) : Bool :=
  p.data.isPrefixOf s.data

/-- JavaScript truthiness of an optional string value: `undefined`/missing
and the empty string are falsy, every other string is truthy. -/
def jsTruthyStr : Option String → Bool
  | none => false
  | some s => s ≠ ""

/-- The fixed closed enumeration of subject labels
(`AVAILABLE_SUBJECTS`, src/server/index.js lines 342-369). -/
def AVAILABLE_SUBJECTS : List String :=
  [ "Mathematics - Algebra",
    "Mathematics - Geometry",
    "Mathematics - Calculus",
    "Mathematics - Statistics",
    "Mathematics - Trigonometry",
    "Physics - Mechanics",
    "Physics - Electricity",
    "Physics - Thermodynamics",
    "Physics - Optics",
    "Chemistry - Organic",
    "Chemistry - Inorganic",
    "Chemistry - Physical",
    "Biology - Cell Biology",
    "Biology - Genetics",
    "Biology - Ecology",
    "Computer Science - Programming",
    "Computer Science - Data Structures",
    "Computer Science - Algorithms",
    "Engineering - Mechanical",
    "Engineering - Electrical",
    "Engineering - Civil",
    "Economics",
    "Business",
    "Literature",
    "History",
    "Other" ]

/-- Outcome of one call to the external AI backend: `Except.ok text` is the
text of its response, `Except.error ()` is any raised error (timeout,
malformed response, quota). -/
abbrev AiResult := Except Unit String

/-- Embedding of `classifyProblemSubject` (src/server/index.js lines
393-446).  The prompt construction and the backend call itself are
abstracted into the call's outcome `aiResult`; the function trims the
response text, accepts it only when it is literally a member of
`AVAILABLE_SUBJECTS`, and falls back to `"Other"` otherwise.  The
surrounding `try`/`catch` maps every backend error to `"Other"` as well. -/
def classifyProblemSubject (aiResult : AiResult) : String :=
  match aiResult with
  | Except.ok txt =>
      let classifiedSubject := jsTrim txt
      if AVAILABLE_SUBJECTS.contains classifiedSubject then
        classifiedSubject
      else
        "Other"
  | Except.error _ => "Other"

/-! ### The in-memory TTL cache (`class Cache`, src/server/index.js lines 25-79)

A JavaScript `Map` is modelled as an insertion-ordered association list with
unique keys. -/

/-- One stored cache entry: the value together with its absolute expiry
instant (`{ value, expiry }`). -/
structure CacheItem (α : Type) where
  value : α
  expiry : Nat
deriving DecidableEq, Repr

/-- `Map.prototype.get`: the value at the first (in a well-formed map, only)
occurrence of the key. -/
def mapGet {β : Type} : List (String × β) → String → Option β
  | [], _ => none
  | kv :: rest, k => if kv.1 = k then some kv.2 else mapGet rest k

/-- `Map.prototype.set`: replace the entry in place when the key is present,
append it otherwise. -/
def mapSet {β : Type} : List (String × β) → String → β → List (String × β)
  | [], k, v => [(k, v)]
  | kv :: rest, k, v => if kv.1 = k then (k, v) :: rest else kv :: mapSet rest k v

/-- `Map.prototype.delete`: remove the entry with the key. -/
def mapDelete {β : Type} : List (String × β) → String → List (String × β)
  | [], _ => []
  | kv :: rest, k => if kv.1 = k then mapDelete rest k else kv :: mapDelete rest k

/-- `cleanup()`: remove every entry whose expiry lies strictly before `now`
(the code deletes exactly the entries with `now > item.expiry`). -/
def cleanupMap {α : Type} : List (String × CacheItem α) → Nat →
    List (String × CacheItem α)
  | [], _ => []
  | kv :: rest, now =>
      if now > kv.2.expiry then cleanupMap rest now
      else kv :: cleanupMap rest now

/-- The cache state: the backing map plus the process-wide default TTL
(5 minutes in the code). -/
structure Cache (α : Type) where
  cache : List (String × CacheItem α)
  defaultTTL : Nat := 5 * 60 * 1000

/-- What `getStats()` reports: entry count and the live keys. -/
structure CacheStats where
  size : Nat
  keys : List String
deriving DecidableEq, Repr

/-- `set(key, value, ttl)` at instant `now`: stores the value with expiry
`now + ttl`, then runs `cleanup()` whenever the resulting size is a
multiple of 50. -/
def Cache.set {α : Type} (c : Cache α) (key : String) (value : α) (now ttl : Nat) :
    Cache α :=
  let expiry := now + ttl
  let m := mapSet c.cache key ⟨value, expiry⟩
  let m := if m.length % 50 = 0 then cleanupMap m now else m
  { c with cache := m }

/-- `get(key)` at instant `now`: absent if never set; absent (and the entry
deleted) if `now` is strictly past the expiry; the value otherwise.  The
possibly-updated cache is returned alongside. -/
def Cache.get {α : Type} (c : Cache α) (key : String) (now : Nat) :
    Option α × Cache α :=
  match mapGet c.cache key with
  | none => (none, c)
  | some item =>
      if now > item.expiry then
        (none, { c with cache := mapDelete c.cache key })
      else
        (some item.value, c)

/-- `delete(key)`: unconditional removal. -/
def Cache.delete {α : Type} (c : Cache α) (key : String) : Cache α :=
  { c with cache := mapDelete c.cache key }

/-- `clear()`: removes all entries. -/
def Cache.clear {α : Type} (c : Cache α) : Cache α :=
  { c with cache := [] }

/-- `getStats()` at instant `now`: runs `cleanup()` first, then reports the
size and keys of the swept map. -/
def Cache.getStats {α : Type} (c : Cache α) (now : Nat) : CacheStats × Cache α :=
  let m := cleanupMap c.cache now
  (⟨m.length, m.map (fun kv => kv.1)⟩, { c with cache := m })

/-! ### The CSRF guard (`csrfProtection`, src/server/index.js lines 184-200) -/

/-- The request fields the guard inspects: HTTP method, path, and the
`x-csrf-token` header (absent or a string). -/
structure CsrfRequest where
  method : String
  path : String
  headerToken : Option String
deriving DecidableEq, Repr

/-- The per-session state the guard inspects: `req.session.csrfSecret`. -/
structure SessionState where
  csrfSecret : Option String
deriving DecidableEq, Repr

/-- Outcome of a middleware: pass control on, or answer with an HTTP status
and error message. -/
inductive CsrfOutcome
  | proceed
  | reject (status : Nat) (msg : String)
deriving DecidableEq, Repr

/-- Embedding of the `csrfProtection` middleware.  GET requests and paths
under `/auth/` are exempt; otherwise the request is rejected with
403 / "Invalid CSRF token" when the header token is missing (falsy), the
session holds no secret, or `csrfTokens.verify(secret, token)` fails.  The
cryptographic `verify` of the `csrf` package is abstracted as a parameter;
the code only ever calls it when both the token and the secret are truthy. -/
def csrfProtection (verify : String → String → Bool) (req : CsrfRequest)
    (sess : SessionState) : CsrfOutcome :=
  if req.method = "GET" ∨ jsStartsWith req.path "/auth/" = true then
    CsrfOutcome.proceed
  else
    if ¬ jsTruthyStr req.headerToken = true ∨ ¬ jsTruthyStr sess.csrfSecret = true ∨
        verify (sess.csrfSecret.getD "") (req.headerToken.getD "") = false then
      CsrfOutcome.reject 403 "Invalid CSRF token"
    else
      CsrfOutcome.proceed

/-! ### The problem store -/

/-- A persisted `Problem` row (prisma model): the `subject`, `rating`,
`question` and `userId` columns are nullable. -/
structure Problem where
  id : Nat
  imageData : String
  imageName : String
  mimeType : String
  question : Option String
  aiResponse : String
  subject : Option String
  rating : Option String
  userId : Option Nat
deriving DecidableEq, Repr

/-- The persistence layer's problem table. -/
abbrev DB := List Problem

/-- `prisma.problem.findUnique({ where: { id } })`. -/
def findProblem (db : DB) (pid : Nat) : Option Problem :=
  db.find? (fun p => p.id = pid)

/-- Decidable form of the data-model invariant on one row: the subject, if
present, is a member of the fixed enumeration. -/
def subjectOk (p : Problem) : Bool :=
  match p.subject with
  | none => true
  | some s => AVAILABLE_SUBJECTS.contains s

/-- The persistence invariant: every row's subject, if present, is a member
of the fixed enumeration. -/
def subjectInv (db : DB) : Prop :=
  ∀ p ∈ db, subjectOk p = true

/-- Outcomes of the rating handler (`PUT /api/problems/:id/rating`,
src/server/index.js lines 663-725). -/
inductive RatingOutcome
  | badRequest
  | notFound
  | permissionDenied
  | ok
deriving DecidableEq, Repr

/-- The three cache keys the rating handler invalidates on success. -/
def ratingCacheKeys (pid uid : Nat) : List String :=
  ["problem:" ++ toString pid, "problems:all", "problems:user_" ++ toString uid]

/-- Embedding of the rating handler's body: re-validate the rating value,
look the problem up (404 when absent), check ownership (403 when the row's
`userId` differs from the requester), then update the rating and invalidate
the row's detail cache entry plus both list entries. -/
def setRating {α : Type} (db : DB) (cache : Cache α) (pid : Nat) (rating : String)
    (uid : Nat) : RatingOutcome × DB × Cache α :=
  if ¬ (["thumbs_up", "thumbs_down"].contains rating) = true then
    (RatingOutcome.badRequest, db, cache)
  else
    match findProblem db pid with
    | none => (RatingOutcome.notFound, db, cache)
    | some problem =>
        if problem.userId ≠ some uid then
          (RatingOutcome.permissionDenied, db, cache)
        else
          let db2 := db.map (fun q =>
            if q.id = pid then { q with rating := some rating } else q)
          let cache2 := ((cache.delete ("problem:" ++ toString pid)).delete
            "problems:all").delete ("problems:user_" ++ toString uid)
          (RatingOutcome.ok, db2, cache2)

/-! ### The upload/analysis orchestrator (`POST /api/analyze-problem`,
src/server/index.js lines 449-548) -/

/-- The request as the handler chain sees it after multer has stored the
upload: whether a file arrived, its mime type / size / contents / name,
whether the `question` field passed the express-validator length check, the
question itself, and the authenticated user's id. -/
structure AnalyzeRequest where
  hasFile : Bool
  mimetype : String
  fileSize : Nat
  questionValid : Bool
  question : Option String
  fileData : String
  fileName : String
  userId : Nat
deriving DecidableEq, Repr

/-- The responses the analyze pipeline can produce. -/
inductive AnalyzeOutcome
  | validationFailed
  | noImage
  | invalidFileType
  | fileTooLarge
  | analysisFailed
  | ok (analysis : String) (problemId : Nat) (subject : String)
deriving DecidableEq, Repr

/-- `allowedMimeTypes` (src/server/index.js line 469). -/
def allowedMimeTypes : List String :=
  ["image/jpeg", "image/png", "image/gif", "image/webp"]

/-- Result of the analyze pipeline: the response, the database and cache
after the operation, and whether `fs.unlinkSync` was called on the stored
temporary file before responding. -/
structure AnalyzeResult (α : Type) where
  response : AnalyzeOutcome
  db : DB
  cache : Cache α
  fileDeleted : Bool

/-- Embedding of the analyze pipeline: the express-validator stage
(`handleValidationErrors`, lines 152-161, which answers 400 without touching
the stored file) followed by the handler body (no-file check, mime allow-list
check, size ceiling check — both of which unlink the file — the explanation
call to the AI backend whose failure is caught by the handler's `catch`
(unlink, generic 500), the classification call whose failure degrades to
`"Other"` inside `classifyProblemSubject`, the `prisma.problem.create`, the
list-cache invalidation, and the final unlink).  `sanitize` abstracts
DOMPurify's `sanitizeInput`; `nextId` is the id the database assigns. -/
def analyzeProblem {α : Type} (sanitize : String → String) (req : AnalyzeRequest)
    (aiExplain : AiResult) (aiClassify : AiResult) (db : DB) (cache : Cache α)
    (nextId : Nat) : AnalyzeResult α :=
  if req.questionValid = false then
    ⟨AnalyzeOutcome.validationFailed, db, cache, false⟩
  else if req.hasFile = false then
    ⟨AnalyzeOutcome.noImage, db, cache, false⟩
  else if ¬ allowedMimeTypes.contains req.mimetype = true then
    ⟨AnalyzeOutcome.invalidFileType, db, cache, true⟩
  else if req.fileSize > 5 * 1024 * 1024 then
    ⟨AnalyzeOutcome.fileTooLarge, db, cache, true⟩
  else
    match aiExplain with
    | Except.error _ => ⟨AnalyzeOutcome.analysisFailed, db, cache, true⟩
    | Except.ok text =>
        let sanitizedQuestion := req.question.map (fun q => sanitize (jsTrim q))
        let subject := classifyProblemSubject aiClassify
        let savedProblem : Problem :=
          { id := nextId
            imageData := req.fileData
            imageName := sanitize req.fileName
            mimeType := req.mimetype
            question := sanitizedQuestion
            aiResponse := text
            subject := some subject
            rating := none
            userId := some req.userId }
        let db2 := db ++ [savedProblem]
        let cache2 := (cache.delete "problems:all").delete
          ("problems:user_" ++ toString req.userId)
        ⟨AnalyzeOutcome.ok text nextId subject, db2, cache2, true⟩

/-! ### The batch-repair job (`POST /api/classify-problems`,
src/server/index.js lines 728-800) -/

/-- The JSON body of the batch-repair response (on the early exit the code
reports only a message and `processed: 0`; the model fills the remaining
counters with 0). -/
structure BatchResponse where
  message : String
  totalFound : Nat
  processed : Nat
  errors : Nat
deriving DecidableEq, Repr

/-- The sequential repair loop: for each scanned row, classify it
(`classifyProblemSubject` cannot throw — it catches internally), then
attempt `prisma.problem.update`; a failing update is caught, counted in
`errors`, and leaves both the row and the row's cache entry untouched; a
successful update stores the subject, deletes the row's detail cache entry,
and is counted in `processed`.  `oracle` gives the classification backend's
outcome per row id, `updateFails` whether the persistence update throws. -/
def runBatch {α : Type} (oracle : Nat → AiResult) (updateFails : Nat → Bool) :
    List Problem → DB → Cache α → Nat → Nat → DB × Cache α × Nat × Nat
  | [], db, cache, processed, errors => (db, cache, processed, errors)
  | p :: rest, db, cache, processed, errors =>
      let subject := classifyProblemSubject (oracle p.id)
      if updateFails p.id then
        runBatch oracle updateFails rest db cache processed (errors + 1)
      else
        let db2 := db.map (fun q =>
          if q.id = p.id then { q with subject := some subject } else q)
        let cache2 := cache.delete ("problem:" ++ toString p.id)
        runBatch oracle updateFails rest db2 cache2 (processed + 1) errors

/-- After the loop the handler deletes `problems:all` and every
`problems:user_*` list entry. -/
def clearUserListCaches {α : Type} (c : Cache α) : Cache α :=
  { c with cache := c.cache.filter (fun kv => ¬ jsStartsWith kv.1 "problems:user_" = true) }

/-- Embedding of the batch-repair handler: scan the rows whose subject is
absent; when none are found answer immediately without touching anything;
otherwise run the sequential loop and then invalidate the list caches. -/
def classifyProblems {α : Type} (oracle : Nat → AiResult) (updateFails : Nat → Bool)
    (db : DB) (cache : Cache α) : BatchResponse × DB × Cache α :=
  let unclassifiedProblems := db.filter (fun p => p.subject = none)
  if unclassifiedProblems.length = 0 then
    (⟨"No unclassified problems found", 0, 0, 0⟩, db, cache)
  else
    let res := runBatch oracle updateFails unclassifiedProblems db cache 0 0
    let cache3 := clearUserListCaches (res.2.1.delete "problems:all")
    (⟨"Classification completed", unclassifiedProblems.length, res.2.2.1, res.2.2.2⟩,
      res.1, cache3)

/-- What one repair run does to an individual row, stated per row: a row
whose subject is absent and whose update succeeds gets the classifier's
label; every other row is untouched. -/
def repairTransform (oracle : Nat → AiResult) (updateFails : Nat → Bool)
    (q : Problem) : Problem :=
  if q.subject = none ∧ updateFails q.id = false then
    { q with subject := some (classifyProblemSubject (oracle q.id)) }
  else q

/-- The transform `runBatch` applies to an individual database row when the
scanned list is `rows`: the row is updated exactly when some scanned row
shares its id and has a succeeding update. -/
def batchTransform (oracle : Nat → AiResult) (updateFails : Nat → Bool)
    (rows : List Problem) (q : Problem) : Problem :=
  if rows.any (fun p => p.id == q.id && !updateFails p.id) then
    { q with subject := some (classifyProblemSubject (oracle q.id)) }
  else q

/-- The full middleware chain of `POST /api/classify-problems`: the global
CSRF guard runs first; the route itself registers no authentication
middleware, so the handler never consults the session's authentication
state (`none` means the request was answered by the guard). -/
def classifyProblemsRoute {α : Type} (verify : String → String → Bool)
    (req : CsrfRequest) (sess : SessionState) (_isAuthenticated : Bool)
    (oracle : Nat → AiResult) (updateFails : Nat → Bool) (db : DB)
    (cache : Cache α) : Option (BatchResponse × DB × Cache α) :=
  match csrfProtection verify req sess with
  | CsrfOutcome.reject _ _ => none
  | CsrfOutcome.proceed => some (classifyProblems oracle updateFails db cache)

/-! ### Concrete fixtures used by witnesses -/

/-- A concrete unclassified row. -/
def problemW1 : Problem :=
  { id := 1, imageData := "aW1n", imageName := "one.png", mimeType := "image/png",
    question := none, aiResponse := "resp1", subject := none, rating := none,
    userId := some 7 }

/-- A concrete already-classified row owned by user 7. -/
def problemW2 : Problem :=
  { id := 2, imageData := "aW1n", imageName := "two.jpg", mimeType := "image/jpeg",
    question := some "why?", aiResponse := "resp2", subject := some "History",
    rating := none, userId := some 7 }

/-- A concrete legacy row with no owning user. -/
def problemW3 : Problem :=
  { id := 3, imageData := "aW1n", imageName := "three.jpg",
    mimeType := "image/jpeg", question := none, aiResponse := "resp3",
    subject := some "Other", rating := some "thumbs_up", userId := none }

/-- A concrete database. -/
def dbW : DB := [problemW1, problemW2, problemW3]

/-- A concrete analyze request that passes every validation. -/
def analyzeReqW : AnalyzeRequest :=
  { hasFile := true, mimetype := "image/jpeg", fileSize := 2048,
    questionValid := true, question := some " what is this ",
    fileData := "aW1n", fileName := "up.jpg", userId := 7 }

/-- A concrete analyze request whose question fails validation while a file
has been stored. -/
def analyzeReqInvalidQuestionW : AnalyzeRequest :=
  { hasFile := true, mimetype := "image/jpeg", fileSize := 2048,
    questionValid := false, question := some "far too long", fileData := "aW1n",
    fileName := "up.jpg", userId := 7 }

/-! ## Helper lemmas -/

theorem classify_mem_subjects (r : AiResult) :
    classifyProblemSubject r ∈ AVAILABLE_SUBJECTS := by
  cases r with
  | ok txt =>
      show (if AVAILABLE_SUBJECTS.contains (jsTrim txt) then jsTrim txt
        else "Other") ∈ AVAILABLE_SUBJECTS
      by_cases h : AVAILABLE_SUBJECTS.contains (jsTrim txt) = true
      · rw [if_pos h]
        exact List.elem_iff.mp h
      · rw [if_neg h]
        decide
  | error e =>
      show "Other" ∈ AVAILABLE_SUBJECTS
      decide

theorem mapGet_mapSet_self {β : Type} (m : List (String × β)) (k : String) (v : β) :
    mapGet (mapSet m k v) k = some v := by
  induction m with
  | nil => simp [mapSet, mapGet]
  | cons kv rest ih =>
      by_cases h : kv.1 = k
      · simp [mapSet, mapGet, h]
      · simp [mapSet, mapGet, h, ih]

theorem mapGet_mapDelete_self {β : Type} (m : List (String × β)) (k : String) :
    mapGet (mapDelete m k) k = none := by
  induction m with
  | nil => simp [mapDelete, mapGet]
  | cons kv rest ih =>
      by_cases h : kv.1 = k
      · simpa [mapDelete, h] using ih
      · simpa [mapDelete, h, mapGet] using ih

theorem mapGet_mapDelete_other {β : Type} (m : List (String × β)) (k k' : String)
    (hne : k' ≠ k) : mapGet (mapDelete m k) k' = mapGet m k' := by
  induction m with
  | nil => simp [mapDelete, mapGet]
  | cons kv rest ih =>
      by_cases h : kv.1 = k
      · have h2 : ¬ kv.1 = k' := fun hk => hne (hk.symm.trans h)
        calc mapGet (mapDelete (kv :: rest) k) k'
            = mapGet (mapDelete rest k) k' := by
              simp only [mapDelete]; rw [if_pos h]
          _ = mapGet rest k' := ih
          _ = mapGet (kv :: rest) k' := by
              simp only [mapGet]; rw [if_neg h2]
      · calc mapGet (mapDelete (kv :: rest) k) k'
            = mapGet (kv :: mapDelete rest k) k' := by
              simp only [mapDelete]; rw [if_neg h]
          _ = mapGet (kv :: rest) k' := by
              by_cases h2 : kv.1 = k'
              · simp only [mapGet]; rw [if_pos h2, if_pos h2]
              · simp only [mapGet]; rw [if_neg h2, if_neg h2, ih]

/-- An unexpired entry survives a `cleanup()` sweep. -/
theorem mapGet_cleanupMap_of_live {α : Type} (m : List (String × CacheItem α))
    (now : Nat) (k : String) (it : CacheItem α)
    (hget : mapGet m k = some it) (hlive : ¬ now > it.expiry) :
    mapGet (cleanupMap m now) k = some it := by
  induction m with
  | nil => simp [mapGet] at hget
  | cons kv rest ih =>
      by_cases h : kv.1 = k
      · rw [mapGet, if_pos h] at hget
        have hkv : kv.2 = it := Option.some.inj hget
        have hl : ¬ now > kv.2.expiry := by rw [hkv]; exact hlive
        rw [cleanupMap, if_neg hl, mapGet, if_pos h, hkv]
      · rw [mapGet, if_neg h] at hget
        by_cases hk : now > kv.2.expiry
        · simpa [cleanupMap, hk] using ih hget
        · simpa [cleanupMap, hk, mapGet, h] using ih hget

/-- After `set(k, v, ttl)` at instant `now`, the entry for `k` is the fresh
one — regardless of whether the periodic sweep fired inside `set`, because
the fresh entry (expiry `now + ttl`) is not expired at `now`. -/
theorem mapGet_cache_set {α : Type} (c : Cache α) (k : String) (v : α)
    (now ttl : Nat) :
    mapGet (Cache.set c k v now ttl).cache k =
      some (⟨v, now + ttl⟩ : CacheItem α) := by
  show mapGet
      (if (mapSet c.cache k ⟨v, now + ttl⟩).length % 50 = 0 then
        cleanupMap (mapSet c.cache k ⟨v, now + ttl⟩) now
      else mapSet c.cache k ⟨v, now + ttl⟩) k = some ⟨v, now + ttl⟩
  by_cases h : (mapSet c.cache k (⟨v, now + ttl⟩ : CacheItem α)).length % 50 = 0
  · rw [if_pos h]
    exact mapGet_cleanupMap_of_live _ now k _ (mapGet_mapSet_self c.cache k _)
      (by show ¬ now > now + ttl; omega)
  · rw [if_neg h]
    exact mapGet_mapSet_self c.cache k _

/-- A read after deleting a list of keys: exactly the deleted keys become
absent, everything else is untouched. -/
theorem mapGet_foldl_mapDelete {β : Type} (ks : List String)
    (m : List (String × β)) (key : String) :
    mapGet (ks.foldl mapDelete m) key =
      if key ∈ ks then none else mapGet m key := by
  induction ks generalizing m with
  | nil => simp
  | cons k ks ih =>
      rw [List.foldl_cons, ih]
      by_cases hks : key ∈ ks
      · simp [hks]
      · by_cases hk : key = k
        · simp [hks, hk, mapGet_mapDelete_self]
        · simp [hks, hk, mapGet_mapDelete_other m k key hk]

/-! ## Claim theorems -/

/-- C1: `classifyProblemSubject` always returns a member of the fixed
enumeration and never fails: on a text response it returns the trimmed
response text exactly when that trimmed text equals a member of
`AVAILABLE_SUBJECTS`, returns the fallback `"Other"` otherwise, and on any
error raised by the AI backend it returns `"Other"`. -/
theorem C1_classifier_contract (r : AiResult) :
    classifyProblemSubject r ∈ AVAILABLE_SUBJECTS ∧
    (∀ txt, r = Except.ok txt →
      (classifyProblemSubject r = jsTrim txt ↔ jsTrim txt ∈ AVAILABLE_SUBJECTS)) ∧
    (∀ txt, r = Except.ok txt → jsTrim txt ∉ AVAILABLE_SUBJECTS →
      classifyProblemSubject r = "Other") ∧
    (∀ e : Unit, r = Except.error e → classifyProblemSubject r = "Other") := by
  refine ⟨classify_mem_subjects r, ?_, ?_, ?_⟩
  · intro txt h
    subst h
    show (if AVAILABLE_SUBJECTS.contains (jsTrim txt) then jsTrim txt
      else "Other") = jsTrim txt ↔ jsTrim txt ∈ AVAILABLE_SUBJECTS
    by_cases hc : AVAILABLE_SUBJECTS.contains (jsTrim txt) = true
    · rw [if_pos hc]
      exact ⟨fun _ => List.elem_iff.mp hc, fun _ => rfl⟩
    · rw [if_neg hc]
      constructor
      · intro heq
        exact absurd (List.elem_iff.mpr
          (heq ▸ (by decide : "Other" ∈ AVAILABLE_SUBJECTS))) hc
      · intro hmem
        exact absurd (List.elem_iff.mpr hmem) hc
  · intro txt h hnot
    subst h
    show (if AVAILABLE_SUBJECTS.contains (jsTrim txt) then jsTrim txt
      else "Other") = "Other"
    rw [if_neg (fun hc => hnot (List.elem_iff.mp hc))]
  · intro e h
    subst h
    rfl

/-- Witness for C1 at concrete inputs: a padded response matching an
enumeration member is stored verbatim after trimming, and a backend error
yields the fallback. -/
theorem C1_witness :
    classifyProblemSubject (Except.ok "  Economics  ") = "Economics" ∧
    classifyProblemSubject (Except.error ()) = "Other" := by
  constructor
  · have h := (C1_classifier_contract (Except.ok "  Economics  ")).2.1
      "  Economics  " rfl
    have hmem : jsTrim "  Economics  " ∈ AVAILABLE_SUBJECTS := by decide
    have h2 := h.mpr hmem
    rw [h2]
    decide
  · exact (C1_classifier_contract (Except.error ())).2.2.2 () rfl

/-- C3 counterexample: `set("k", 1, 5)` at instant 0 followed by `get("k")`
at instant 5 — exactly the ttl has elapsed — still returns the value,
because the code only treats an entry as expired when `Date.now()` is
STRICTLY greater than the stored expiry.  This refutes the claim's "returns
absent (null, deleting the entry) once t has elapsed". -/
theorem C3_counterexample_boundary :
    ((({ cache := [] } : Cache Nat).set "k" 1 0 5).get "k" (0 + 5)).1 = some 1 := by
  rfl

/-- C3 (amended): after `set(k, v, t)` at instant t0, `get(k)` returns v
while AT MOST t has elapsed and returns absent — deleting the entry — once
STRICTLY MORE than t has elapsed; `get` with no prior `set` returns absent;
`delete(k)` followed by `get(k)` returns absent; after `clear()`,
`getStats()` reports size 0. -/
theorem C3_cache_contract {α : Type} (c : Cache α) (k : String) (v : α)
    (t0 t1 t2 ttl dflt : Nat) :
    (t1 ≤ t0 + ttl → ((c.set k v t0 ttl).get k t1).1 = some v) ∧
    (t1 > t0 + ttl → ((c.set k v t0 ttl).get k t1).1 = none ∧
      mapGet ((c.set k v t0 ttl).get k t1).2.cache k = none) ∧
    ((({ cache := [], defaultTTL := dflt } : Cache α).get k t1).1 = none) ∧
    (((c.delete k).get k t1).1 = none) ∧
    ((c.clear.getStats t2).1.size = 0) := by
  refine ⟨?_, ?_, ?_, ?_, ?_⟩
  · intro h
    have hm := mapGet_cache_set c k v t0 ttl
    have hlt : ¬ t1 > t0 + ttl := by omega
    unfold Cache.get
    rw [hm]
    simp only []
    rw [if_neg (by simpa using hlt)]
  · intro h
    have hm := mapGet_cache_set c k v t0 ttl
    unfold Cache.get
    rw [hm]
    simp only []
    rw [if_pos (by simpa using h)]
    exact ⟨rfl, mapGet_mapDelete_self _ k⟩
  · rfl
  · unfold Cache.get Cache.delete
    rw [mapGet_mapDelete_self]
  · rfl

/-- Witness for C3 at concrete inputs: a value is read back while within
the ttl and is absent strictly after it. -/
theorem C3_witness :
    ((({ cache := [] } : Cache Nat).set "k" 7 0 5).get "k" 3).1 = some 7 ∧
    ((({ cache := [] } : Cache Nat).set "k" 7 0 5).get "k" 9).1 = none := by
  constructor
  · exact (C3_cache_contract { cache := [] } "k" 7 0 3 0 5 0).1 (by decide)
  · exact ((C3_cache_contract { cache := [] } "k" 7 0 9 0 5 0).2.1 (by decide)).1

/-- C4: for every request whose method is not GET and whose path is not
under the exempted `/auth/` paths, the CSRF guard answers
403/"Invalid CSRF token" exactly when the header token is missing (falsy),
the session holds no secret, or the cryptographic verification of
(secret, token) fails — and passes the request on to the handler exactly
otherwise. -/
theorem C4_csrf_guard (verify : String → String → Bool) (req : CsrfRequest)
    (sess : SessionState) (hm : req.method ≠ "GET")
    (hp : jsStartsWith req.path "/auth/" = false) :
    (csrfProtection verify req sess = CsrfOutcome.reject 403 "Invalid CSRF token" ↔
      (¬ jsTruthyStr req.headerToken = true ∨ ¬ jsTruthyStr sess.csrfSecret = true ∨
        verify (sess.csrfSecret.getD "") (req.headerToken.getD "") = false)) ∧
    (csrfProtection verify req sess = CsrfOutcome.proceed ↔
      (jsTruthyStr req.headerToken = true ∧ jsTruthyStr sess.csrfSecret = true ∧
        verify (sess.csrfSecret.getD "") (req.headerToken.getD "") = true)) := by
  have hcond : ¬ (req.method = "GET" ∨ jsStartsWith req.path "/auth/" = true) := by
    rintro (h | h)
    · exact hm h
    · rw [hp] at h
      cases h
  unfold csrfProtection
  rw [if_neg hcond]
  by_cases h : (¬ jsTruthyStr req.headerToken = true ∨
      ¬ jsTruthyStr sess.csrfSecret = true ∨
      verify (sess.csrfSecret.getD "") (req.headerToken.getD "") = false)
  · rw [if_pos h]
    refine ⟨⟨fun _ => h, fun _ => rfl⟩, ?_, ?_⟩
    · intro hx
      exact CsrfOutcome.noConfusion hx
    · intro hconj
      rcases h with h' | h' | h'
      · exact absurd hconj.1 h'
      · exact absurd hconj.2.1 h'
      · cases h'.symm.trans hconj.2.2
  · rw [if_neg h]
    push_neg at h
    obtain ⟨h1, h2, h3⟩ := h
    have h3' : verify (sess.csrfSecret.getD "") (req.headerToken.getD "") = true := by
      cases hb : verify (sess.csrfSecret.getD "") (req.headerToken.getD "")
      · exact absurd hb h3
      · rfl
    refine ⟨⟨fun hx => CsrfOutcome.noConfusion hx, ?_⟩,
      fun _ => ⟨h1, h2, h3'⟩, fun _ => rfl⟩
    rintro (h' | h' | h')
    · exact absurd h1 h'
    · exact absurd h2 h'
    · cases h3'.symm.trans h'

/-- Witness for C4 at concrete inputs: a mutating request with no token is
rejected; one with a truthy token, a session secret and a passing
verification proceeds. -/
theorem C4_witness :
    csrfProtection (fun _ _ => true)
      ⟨"PUT", "/api/problems/1/rating", none⟩ ⟨none⟩ =
      CsrfOutcome.reject 403 "Invalid CSRF token" ∧
    csrfProtection (fun _ _ => true)
      ⟨"PUT", "/api/problems/1/rating", some "tok"⟩ ⟨some "sec"⟩ =
      CsrfOutcome.proceed := by
  constructor
  · exact (C4_csrf_guard (fun _ _ => true) ⟨"PUT", "/api/problems/1/rating", none⟩
      ⟨none⟩ (by decide) (by decide)).1.mpr (Or.inl (by decide))
  · exact (C4_csrf_guard (fun _ _ => true)
      ⟨"PUT", "/api/problems/1/rating", some "tok"⟩ ⟨some "sec"⟩
      (by decide) (by decide)).2.mpr ⟨by decide, by decide, rfl⟩

/-- C5: `setRating` answers not-found when the id does not resolve; answers
permission-denied — leaving database and cache untouched — when the row's
owner is not the requester; and otherwise updates the rating and
invalidates exactly the row's detail cache entry, the all-problems list
entry and the owner's my-problems list entry, touching no other key. -/
theorem C5_set_rating_contract {α : Type} (db : DB) (cache : Cache α)
    (pid : Nat) (rating : String) (uid : Nat)
    (hr : rating ∈ ["thumbs_up", "thumbs_down"]) :
    (findProblem db pid = none →
      setRating db cache pid rating uid = (RatingOutcome.notFound, db, cache)) ∧
    (∀ p, findProblem db pid = some p → p.userId ≠ some uid →
      setRating db cache pid rating uid =
        (RatingOutcome.permissionDenied, db, cache)) ∧
    (∀ p, findProblem db pid = some p → p.userId = some uid →
      (setRating db cache pid rating uid).1 = RatingOutcome.ok ∧
      (setRating db cache pid rating uid).2.1 =
        db.map (fun q => if q.id = pid then { q with rating := some rating } else q) ∧
      (∀ key, mapGet (setRating db cache pid rating uid).2.2.cache key =
        if key ∈ ratingCacheKeys pid uid then none else mapGet cache.cache key)) := by
  have hv : (["thumbs_up", "thumbs_down"].contains rating) = true :=
    List.elem_eq_true_of_mem hr
  refine ⟨?_, ?_, ?_⟩
  · intro h
    unfold setRating
    rw [if_neg (fun hn => hn hv), h]
  · intro p hp hne
    unfold setRating
    rw [if_neg (fun hn => hn hv), hp]
    simp only []
    rw [if_pos hne]
  · intro p hp howner
    unfold setRating
    rw [if_neg (fun hn => hn hv), hp]
    simp only []
    rw [if_neg (fun hne => hne howner)]
    refine ⟨rfl, rfl, ?_⟩
    intro key
    show mapGet (List.foldl mapDelete cache.cache (ratingCacheKeys pid uid)) key = _
    exact mapGet_foldl_mapDelete _ _ _

/-- Witness for C5 at concrete inputs: a missing id, a foreign requester,
and the owner's successful update. -/
theorem C5_witness :
    (setRating dbW ({ cache := [] } : Cache Nat) 99 "thumbs_up" 7 =
      (RatingOutcome.notFound, dbW, { cache := [] })) ∧
    (setRating dbW ({ cache := [] } : Cache Nat) 2 "thumbs_up" 5 =
      (RatingOutcome.permissionDenied, dbW, { cache := [] })) ∧
    ((setRating dbW ({ cache := [] } : Cache Nat) 2 "thumbs_up" 7).1 =
      RatingOutcome.ok) := by
  refine ⟨?_, ?_, ?_⟩
  · exact (C5_set_rating_contract dbW { cache := [] } 99 "thumbs_up" 7
      (by decide)).1 rfl
  · exact (C5_set_rating_contract dbW { cache := [] } 2 "thumbs_up" 5
      (by decide)).2.1 problemW2 rfl (by decide)
  · exact ((C5_set_rating_contract dbW { cache := [] } 2 "thumbs_up" 7
      (by decide)).2.2 problemW2 rfl rfl).1

/-- C10: a problem row whose owning-user reference is null can never be
rated: for every requesting user the ownership check
`problem.userId !== userId` is true (null differs from every user id), so
the handler answers permission-denied and leaves database and cache
unchanged. -/
theorem C10_null_owner_never_rated {α : Type} (db : DB) (cache : Cache α)
    (pid : Nat) (rating : String) (uid : Nat) (p : Problem)
    (hr : rating ∈ ["thumbs_up", "thumbs_down"])
    (hp : findProblem db pid = some p) (hnull : p.userId = none) :
    setRating db cache pid rating uid =
      (RatingOutcome.permissionDenied, db, cache) := by
  have hv : (["thumbs_up", "thumbs_down"].contains rating) = true :=
    List.elem_eq_true_of_mem hr
  unfold setRating
  rw [if_neg (fun hn => hn hv), hp]
  simp only []
  rw [if_pos (by rw [hnull]; exact fun h => Option.noConfusion h)]

/-- Witness for C10 at a concrete input: the legacy row with no owner is
refused to an authenticated requester. -/
theorem C10_witness :
    setRating dbW ({ cache := [] } : Cache Nat) 3 "thumbs_down" 7 =
      (RatingOutcome.permissionDenied, dbW, { cache := [] }) :=
  C10_null_owner_never_rated dbW { cache := [] } 3 "thumbs_down" 7 problemW3
    (by decide) rfl rfl

/-- A freshly classified row satisfies the per-row subject invariant. -/
theorem subjectOk_update (q : Problem) (s : String) (hs : s ∈ AVAILABLE_SUBJECTS) :
    subjectOk { q with subject := some s } = true := by
  show AVAILABLE_SUBJECTS.contains s = true
  exact List.elem_eq_true_of_mem hs

/-- The sequential repair loop preserves the subject invariant: every
subject it writes is an output of `classifyProblemSubject`. -/
theorem subjectInv_runBatch {α : Type} (oracle : Nat → AiResult)
    (updateFails : Nat → Bool) (rows : List Problem) (db : DB) (cache : Cache α)
    (pr er : Nat) (h : subjectInv db) :
    subjectInv (runBatch oracle updateFails rows db cache pr er).1 := by
  induction rows generalizing db cache pr er with
  | nil => simpa [runBatch] using h
  | cons p rest ih =>
      by_cases hf : updateFails p.id = true
      · simp only [runBatch, hf, if_true]
        exact ih db cache pr (er + 1) h
      · simp only [runBatch, hf, if_false]
        apply ih
        intro q hq
        rcases List.mem_map.mp hq with ⟨q0, hq0, rfl⟩
        by_cases hid : q0.id = p.id
        · rw [if_pos hid]
          exact subjectOk_update q0 _ (classify_mem_subjects _)
        · rw [if_neg hid]
          exact h q0 hq0

/-- The analyze pipeline preserves the subject invariant: the only row it
appends carries an output of `classifyProblemSubject`. -/
theorem subjectInv_analyze {α : Type} (sanitize : String → String)
    (req : AnalyzeRequest) (aiE aiC : AiResult) (db : DB) (cache : Cache α)
    (nextId : Nat) (h : subjectInv db) :
    subjectInv (analyzeProblem sanitize req aiE aiC db cache nextId).db := by
  unfold analyzeProblem
  split_ifs
  any_goals exact h
  cases aiE with
  | error e => exact h
  | ok text =>
      intro q hq
      rcases List.mem_append.mp hq with hq | hq
      · exact h q hq
      · rcases List.mem_singleton.mp hq with rfl
        show AVAILABLE_SUBJECTS.contains (classifyProblemSubject aiC) = true
        exact List.elem_eq_true_of_mem (classify_mem_subjects aiC)

/-- C2: every persisted subject value is a member of the fixed enumeration:
both write paths — the row created by the analyze operation and the rows
updated by the batch-repair operation — preserve the invariant that every
row's subject, if present, belongs to `AVAILABLE_SUBJECTS`, whatever the AI
backend returns. -/
theorem C2_persisted_subject_invariant {α : Type} (sanitize : String → String)
    (req : AnalyzeRequest) (aiE aiC : AiResult) (oracle : Nat → AiResult)
    (updateFails : Nat → Bool) (db : DB) (cache : Cache α) (nextId : Nat)
    (h : subjectInv db) :
    subjectInv (analyzeProblem sanitize req aiE aiC db cache nextId).db ∧
    subjectInv (classifyProblems oracle updateFails db cache).2.1 := by
  constructor
  · exact subjectInv_analyze sanitize req aiE aiC db cache nextId h
  · unfold classifyProblems
    by_cases h0 : (db.filter (fun p => p.subject = none)).length = 0
    · simpa [h0] using h
    · simp only [h0, if_false]
      exact subjectInv_runBatch oracle updateFails _ db cache 0 0 h

/-- Witness for C2 at concrete inputs: starting from a database satisfying
the invariant, both write paths keep it, even when the backend answers a
string outside the enumeration. -/
theorem C2_witness :
    subjectInv (analyzeProblem (fun s => s) analyzeReqW (Except.ok "text")
      (Except.ok "bogus subject") dbW ({ cache := [] } : Cache Nat) 4).db ∧
    subjectInv (classifyProblems (fun _ => Except.ok "bogus subject")
      (fun _ => false) dbW ({ cache := [] } : Cache Nat)).2.1 :=
  C2_persisted_subject_invariant (fun s => s) analyzeReqW (Except.ok "text")
    (Except.ok "bogus subject") (fun _ => Except.ok "bogus subject")
    (fun _ => false) dbW { cache := [] } 4 (by unfold subjectInv; decide)

/-- C6: failure of the explanation-generating AI call aborts the whole
analyze operation — the database is unchanged and the caller receives only
the generic analysis-failed signal — whereas failure of the subsequent
classification call never aborts: the record is persisted with the
fallback subject label `"Other"`. -/
theorem C6_analyze_failure_semantics {α : Type} (sanitize : String → String)
    (req : AnalyzeRequest) (aiClassify : AiResult) (db : DB) (cache : Cache α)
    (nextId : Nat) (hq : req.questionValid = true) (hf : req.hasFile = true)
    (hm : allowedMimeTypes.contains req.mimetype = true)
    (hs : ¬ req.fileSize > 5 * 1024 * 1024) :
    (∀ e, analyzeProblem sanitize req (Except.error e) aiClassify db cache nextId =
      ⟨AnalyzeOutcome.analysisFailed, db, cache, true⟩) ∧
    (∀ text e,
      analyzeProblem sanitize req (Except.ok text) (Except.error e) db cache nextId =
        ⟨AnalyzeOutcome.ok text nextId "Other",
          db ++ [{ id := nextId, imageData := req.fileData,
                   imageName := sanitize req.fileName, mimeType := req.mimetype,
                   question := req.question.map (fun q => sanitize (jsTrim q)),
                   aiResponse := text, subject := some "Other", rating := none,
                   userId := some req.userId }],
          (cache.delete "problems:all").delete
            ("problems:user_" ++ toString req.userId),
          true⟩) := by
  have hq' : ¬ req.questionValid = false := by simp [hq]
  have hf' : ¬ req.hasFile = false := by simp [hf]
  have hm' : ¬ ¬ allowedMimeTypes.contains req.mimetype = true := fun hn => hn hm
  constructor
  · intro e
    unfold analyzeProblem
    rw [if_neg hq', if_neg hf', if_neg hm', if_neg hs]
  · intro text e
    unfold analyzeProblem
    rw [if_neg hq', if_neg hf', if_neg hm', if_neg hs]
    rfl

/-- Witness for C6 at concrete inputs: an explanation failure persists
nothing; a classification failure still persists, with subject "Other". -/
theorem C6_witness :
    (analyzeProblem (fun s => s) analyzeReqW (Except.error ()) (Except.ok "History")
      [] ({ cache := [] } : Cache Nat) 5).db = [] ∧
    (analyzeProblem (fun s => s) analyzeReqW (Except.ok "explained")
      (Except.error ()) [] ({ cache := [] } : Cache Nat) 5).response =
      AnalyzeOutcome.ok "explained" 5 "Other" := by
  constructor
  · rw [(C6_analyze_failure_semantics (fun s => s) analyzeReqW (Except.ok "History")
      [] ({ cache := [] } : Cache Nat) 5 rfl rfl (by decide) (by decide)).1 ()]
  · rw [(C6_analyze_failure_semantics (fun s => s) analyzeReqW (Except.error ())
      [] ({ cache := [] } : Cache Nat) 5 rfl rfl (by decide) (by decide)).2
      "explained" ()]

/-- C7: evaluation at the failing input.  A request that stored a file
(`hasFile = true`) but whose question fails the express-validator check is
answered 400 by `handleValidationErrors` with the temporary file NOT
deleted (`fileDeleted = false`): the invalid-question exit path leaks the
stored upload, contradicting the claim that every exit path deletes it. -/
theorem C7_leak_on_invalid_question :
    analyzeReqInvalidQuestionW.hasFile = true ∧
    (analyzeProblem (fun s => s) analyzeReqInvalidQuestionW (Except.ok "text")
      (Except.ok "History") [] ({ cache := [] } : Cache Nat) 1).response =
      AnalyzeOutcome.validationFailed ∧
    (analyzeProblem (fun s => s) analyzeReqInvalidQuestionW (Except.ok "text")
      (Except.ok "History") [] ({ cache := [] } : Cache Nat) 1).fileDeleted =
      false :=
  ⟨rfl, rfl, rfl⟩

/-- C8 counterexample: a POST to `/api/classify-problems` presenting no
CSRF token is rejected 403 by the global `csrfProtection` middleware — the
route is non-GET and not under `/auth/` — so the batch-repair operation is
NOT free of the CSRF requirement.  (The verifier is irrelevant: the guard
rejects before ever calling it.) -/
theorem C8_counterexample_csrf_applies :
    csrfProtection (fun _ _ => true)
      ⟨"POST", "/api/classify-problems", none⟩ ⟨none⟩ =
      CsrfOutcome.reject 403 "Invalid CSRF token" := rfl

/-- C8 (amended): the batch-repair route registers no authentication check
— its outcome is identical whatever the requester's authentication state —
but it IS subject to the global CSRF guard: the handler runs exactly when
the guard passes the request and the request is answered by the guard
otherwise. -/
theorem C8_no_auth_check_but_csrf_guard {α : Type}
    (verify : String → String → Bool) (req : CsrfRequest) (sess : SessionState)
    (a b : Bool) (oracle : Nat → AiResult) (updateFails : Nat → Bool) (db : DB)
    (cache : Cache α) :
    (classifyProblemsRoute verify req sess a oracle updateFails db cache =
      classifyProblemsRoute verify req sess b oracle updateFails db cache) ∧
    (csrfProtection verify req sess = CsrfOutcome.proceed →
      classifyProblemsRoute verify req sess a oracle updateFails db cache =
        some (classifyProblems oracle updateFails db cache)) ∧
    (∀ st msg, csrfProtection verify req sess = CsrfOutcome.reject st msg →
      classifyProblemsRoute verify req sess a oracle updateFails db cache =
        none) := by
  refine ⟨rfl, ?_, ?_⟩
  · intro h
    unfold classifyProblemsRoute
    rw [h]
  · intro st msg h
    unfold classifyProblemsRoute
    rw [h]

/-- Witness for C8 at a concrete input: with a valid token/secret pair the
handler runs although the requester is unauthenticated. -/
theorem C8_witness :
    classifyProblemsRoute (fun _ _ => true)
      ⟨"POST", "/api/classify-problems", some "tok"⟩ ⟨some "sec"⟩ false
      (fun _ => Except.ok "History") (fun _ => false) dbW
      ({ cache := [] } : Cache Nat) =
      some (classifyProblems (fun _ => Except.ok "History") (fun _ => false) dbW
        { cache := [] }) :=
  (C8_no_auth_check_but_csrf_guard (fun _ _ => true)
    ⟨"POST", "/api/classify-problems", some "tok"⟩ ⟨some "sec"⟩ false true
    (fun _ => Except.ok "History") (fun _ => false) dbW
    { cache := [] }).2.1 (by decide)

/-- One unfolding step of the repair loop when the row's update throws. -/
theorem runBatch_cons_fail {α : Type} (oracle : Nat → AiResult)
    (updateFails : Nat → Bool) (p : Problem) (rest : List Problem) (db : DB)
    (cache : Cache α) (pr er : Nat) (hf : updateFails p.id = true) :
    runBatch oracle updateFails (p :: rest) db cache pr er =
      runBatch oracle updateFails rest db cache pr (er + 1) := by
  simp [runBatch, hf]

/-- One unfolding step of the repair loop when the row's update succeeds. -/
theorem runBatch_cons_succ {α : Type} (oracle : Nat → AiResult)
    (updateFails : Nat → Bool) (p : Problem) (rest : List Problem) (db : DB)
    (cache : Cache α) (pr er : Nat) (hf : updateFails p.id = false) :
    runBatch oracle updateFails (p :: rest) db cache pr er =
      runBatch oracle updateFails rest
        (db.map (fun q => if q.id = p.id then
          { q with subject := some (classifyProblemSubject (oracle p.id)) } else q))
        (cache.delete ("problem:" ++ toString p.id)) (pr + 1) er := by
  simp [runBatch, hf]

/-- Processed and error counters of the repair loop add up to the number of
scanned rows. -/
theorem runBatch_counts {α : Type} (oracle : Nat → AiResult)
    (updateFails : Nat → Bool) (rows : List Problem) (db : DB) (cache : Cache α)
    (pr er : Nat) :
    (runBatch oracle updateFails rows db cache pr er).2.2.1 +
      (runBatch oracle updateFails rows db cache pr er).2.2.2 =
      pr + er + rows.length := by
  induction rows generalizing db cache pr er with
  | nil => simp [runBatch]
  | cons p rest ih =>
      cases hf : updateFails p.id with
      | true =>
          rw [runBatch_cons_fail oracle updateFails p rest db cache pr er hf, ih]
          simp only [List.length_cons]
          omega
      | false =>
          rw [runBatch_cons_succ oracle updateFails p rest db cache pr er hf, ih]
          simp only [List.length_cons]
          omega

/-- The database after the repair loop over `rows` with pairwise distinct
row ids: each row of the database is rewritten by `batchTransform`. -/
theorem runBatch_db_eq {α : Type} (oracle : Nat → AiResult)
    (updateFails : Nat → Bool) (rows : List Problem) (db : DB) (cache : Cache α)
    (pr er : Nat) (hn : (rows.map Problem.id).Nodup) :
    (runBatch oracle updateFails rows db cache pr er).1 =
      db.map (batchTransform oracle updateFails rows) := by
  induction rows generalizing db cache pr er with
  | nil =>
      show db = db.map (batchTransform oracle updateFails [])
      have h1 : db.map (batchTransform oracle updateFails []) = db.map id :=
        List.map_congr_left (fun q _ => rfl)
      rw [h1, List.map_id]
  | cons p rest ih =>
      have hp : p.id ∉ rest.map Problem.id := (List.nodup_cons.mp hn).1
      have hrest : (rest.map Problem.id).Nodup := (List.nodup_cons.mp hn).2
      cases hf : updateFails p.id with
      | true =>
          rw [runBatch_cons_fail oracle updateFails p rest db cache pr er hf,
            ih _ _ _ _ hrest]
          apply List.map_congr_left
          intro q _
          unfold batchTransform
          have hcond : ((p :: rest).any fun p' => p'.id == q.id && !updateFails p'.id)
              = (rest.any fun p' => p'.id == q.id && !updateFails p'.id) := by
            rw [List.any_cons, hf]
            simp
          rw [hcond]
      | false =>
          rw [runBatch_cons_succ oracle updateFails p rest db cache pr er hf,
            ih _ _ _ _ hrest, List.map_map]
          apply List.map_congr_left
          intro q _
          show batchTransform oracle updateFails rest
              (if q.id = p.id then
                { q with subject := some (classifyProblemSubject (oracle p.id)) }
              else q) =
            batchTransform oracle updateFails (p :: rest) q
          by_cases hid : q.id = p.id
          · rw [if_pos hid]
            have hanyrest : (rest.any fun p' => p'.id == q.id && !updateFails p'.id)
                = false := by
              rw [List.any_eq_false]
              intro p' hp'
              have hne : p'.id ≠ q.id := by
                rw [hid]
                exact fun hh => hp (hh ▸ List.mem_map_of_mem Problem.id hp')
              simp [hne]
            have hanycons :
                ((p :: rest).any fun p' => p'.id == q.id && !updateFails p'.id)
                = true := by
              rw [List.any_cons]
              have hh : (p.id == q.id && !updateFails p.id) = true := by
                have hpq : (p.id == q.id) = true := beq_iff_eq.mpr hid.symm
                rw [hpq, Bool.true_and, hf]
                rfl
              rw [hh]
              simp
            unfold batchTransform
            have hidq :
                ({ q with subject := some (classifyProblemSubject (oracle p.id)) } :
                  Problem).id = q.id := rfl
            rw [hidq, hanyrest, hanycons]
            simp [hid]
          · rw [if_neg hid]
            unfold batchTransform
            have hcond :
                ((p :: rest).any fun p' => p'.id == q.id && !updateFails p'.id)
                = (rest.any fun p' => p'.id == q.id && !updateFails p'.id) := by
              rw [List.any_cons]
              have hh : (p.id == q.id && !updateFails p.id) = false := by
                have hpq : (p.id == q.id) = false :=
                  beq_eq_false_iff_ne.mpr (fun hh => hid hh.symm)
                rw [hpq, Bool.false_and]
              rw [hh]
              simp
            rw [hcond]

/-- With globally distinct row ids, equal ids identify equal rows. -/
theorem problem_id_inj (db : DB) (hn : (db.map Problem.id).Nodup)
    {p q : Problem} (hp : p ∈ db) (hq : q ∈ db) (h : p.id = q.id) : p = q :=
  List.inj_on_of_nodup_map hn hp hq h

/-- The batch-repair handler rewrites each database row by
`repairTransform` (given globally distinct row ids): exactly the rows whose
subject is absent and whose update succeeds receive the classifier's label;
every other row — in particular every already-classified row — is
untouched. -/
theorem classifyProblems_db_eq {α : Type} (oracle : Nat → AiResult)
    (updateFails : Nat → Bool) (db : DB) (cache : Cache α)
    (hn : (db.map Problem.id).Nodup) :
    (classifyProblems oracle updateFails db cache).2.1 =
      db.map (repairTransform oracle updateFails) := by
  unfold classifyProblems
  by_cases h0 : (db.filter (fun p => p.subject = none)).length = 0
  · rw [if_pos h0]
    have hempty : ∀ p ∈ db, ¬ p.subject = none := by
      have hnil := List.length_eq_zero.mp h0
      intro p hp hnone
      have hmem : p ∈ db.filter (fun p => p.subject = none) :=
        List.mem_filter.mpr ⟨hp, by simp [hnone]⟩
      rw [hnil] at hmem
      cases hmem
    show db = _
    have h1 : db.map (repairTransform oracle updateFails) = db.map id := by
      apply List.map_congr_left
      intro q hq
      unfold repairTransform
      rw [if_neg (fun hc => hempty q hq hc.1)]
      rfl
    rw [h1, List.map_id]
  · rw [if_neg h0]
    show (runBatch oracle updateFails (db.filter fun p => p.subject = none)
      db cache 0 0).1 = _
    have hnr : ((db.filter fun p => p.subject = none).map Problem.id).Nodup :=
      List.Nodup.sublist ((List.filter_sublist db).map Problem.id) hn
    rw [runBatch_db_eq oracle updateFails _ db cache 0 0 hnr]
    apply List.map_congr_left
    intro q hq
    unfold batchTransform repairTransform
    by_cases hsub : q.subject = none
    · cases hfq : updateFails q.id with
      | false =>
          have hq_rows : q ∈ db.filter (fun p => p.subject = none) :=
            List.mem_filter.mpr ⟨hq, by simp [hsub]⟩
          have hany : ((db.filter fun p => p.subject = none).any
              fun p' => p'.id == q.id && !updateFails p'.id) = true := by
            rw [List.any_eq_true]
            refine ⟨q, hq_rows, ?_⟩
            rw [beq_self_eq_true, Bool.true_and, hfq]
            rfl
          rw [hany, if_pos rfl, if_pos ⟨hsub, rfl⟩]
      | true =>
          have hany : ((db.filter fun p => p.subject = none).any
              fun p' => p'.id == q.id && !updateFails p'.id) = false := by
            rw [List.any_eq_false]
            intro p' hp' hcontra
            simp only [Bool.and_eq_true, beq_iff_eq, Bool.not_eq_true'] at hcontra
            have hp'db : p' ∈ db := (List.mem_filter.mp hp').1
            have hpq : p' = q := problem_id_inj db hn hp'db hq hcontra.1
            rw [hpq, hfq] at hcontra
            exact absurd hcontra.2 (by decide)
          rw [hany, if_neg (by decide : ¬ (false = true))]
          rw [if_neg (fun hc => absurd hc.2 (by decide))]
    · have hany : ((db.filter fun p => p.subject = none).any
          fun p' => p'.id == q.id && !updateFails p'.id) = false := by
        rw [List.any_eq_false]
        intro p' hp' hcontra
        simp only [Bool.and_eq_true, beq_iff_eq, Bool.not_eq_true'] at hcontra
        have hp'db : p' ∈ db := (List.mem_filter.mp hp').1
        have hpnone : p'.subject = none := by
          have hh := (List.mem_filter.mp hp').2
          simpa using hh
        have hpq : p' = q := problem_id_inj db hn hp'db hq hcontra.1
        rw [hpq] at hpnone
        exact hsub hpnone
      rw [hany, if_neg (by decide : ¬ (false = true)),
        if_neg (fun hc => hsub hc.1)]

/-- `repairTransform` never changes a row's id, so the repaired database
keeps the original id list (and in particular its distinctness). -/
theorem map_id_repairTransform (oracle : Nat → AiResult)
    (updateFails : Nat → Bool) (db : DB) :
    (db.map (repairTransform oracle updateFails)).map Problem.id =
      db.map Problem.id := by
  rw [List.map_map]
  apply List.map_congr_left
  intro q _
  show (repairTransform oracle updateFails q).id = q.id
  unfold repairTransform
  by_cases hc : q.subject = none ∧ updateFails q.id = false
  · rw [if_pos hc]
  · rw [if_neg hc]

/-- When no row has an absent subject the batch-repair handler answers
immediately and touches nothing. -/
theorem classifyProblems_of_no_unclassified {α : Type} (oracle : Nat → AiResult)
    (updateFails : Nat → Bool) (db : DB) (cache : Cache α)
    (h : db.filter (fun p => p.subject = none) = []) :
    classifyProblems oracle updateFails db cache =
      (⟨"No unclassified problems found", 0, 0, 0⟩, db, cache) := by
  unfold classifyProblems
  rw [h]
  rfl

/-- C9: the batch-repair operation scans exactly the persisted rows whose
subject is absent and reports processed + errors = totalFound; its effect
on the database is precisely `repairTransform` applied to every row, so an
already-classified row is never revisited and a row whose update errors
keeps an absent subject and remains eligible; and when every scanned row's
update succeeds, a second run with no intervening writes processes zero
rows and leaves the database unchanged. -/
theorem C9_batch_repair_contract {α : Type} (oracle oracle2 : Nat → AiResult)
    (updateFails updateFails2 : Nat → Bool) (db : DB) (cache : Cache α)
    (hn : (db.map Problem.id).Nodup) :
    ((classifyProblems oracle updateFails db cache).1.totalFound =
      (db.filter (fun p => p.subject = none)).length) ∧
    ((classifyProblems oracle updateFails db cache).1.processed +
        (classifyProblems oracle updateFails db cache).1.errors =
      (classifyProblems oracle updateFails db cache).1.totalFound) ∧
    ((classifyProblems oracle updateFails db cache).2.1 =
      db.map (repairTransform oracle updateFails)) ∧
    (∀ q ∈ db, q.subject ≠ none → repairTransform oracle updateFails q = q) ∧
    (∀ q ∈ db, q.subject = none → updateFails q.id = true →
      repairTransform oracle updateFails q = q) ∧
    ((∀ q ∈ db, q.subject = none → updateFails q.id = false) →
      (classifyProblems oracle2 updateFails2
          (classifyProblems oracle updateFails db cache).2.1
          (classifyProblems oracle updateFails db cache).2.2).1.processed = 0 ∧
      (classifyProblems oracle2 updateFails2
          (classifyProblems oracle updateFails db cache).2.1
          (classifyProblems oracle updateFails db cache).2.2).2.1 =
        (classifyProblems oracle updateFails db cache).2.1) := by
  refine ⟨?_, ?_, classifyProblems_db_eq oracle updateFails db cache hn,
    ?_, ?_, ?_⟩
  · unfold classifyProblems
    by_cases h0 : (db.filter (fun p => p.subject = none)).length = 0
    · rw [if_pos h0]
      exact h0.symm
    · rw [if_neg h0]
  · unfold classifyProblems
    by_cases h0 : (db.filter (fun p => p.subject = none)).length = 0
    · rw [if_pos h0]
      rfl
    · rw [if_neg h0]
      show (runBatch oracle updateFails (db.filter fun p => p.subject = none)
          db cache 0 0).2.2.1 +
        (runBatch oracle updateFails (db.filter fun p => p.subject = none)
          db cache 0 0).2.2.2 =
        (db.filter fun p => p.subject = none).length
      simpa using runBatch_counts oracle updateFails
        (db.filter fun p => p.subject = none) db cache 0 0
  · intro q _ hne
    unfold repairTransform
    rw [if_neg (fun hc => hne hc.1)]
  · intro q _ h1 h2
    unfold repairTransform
    rw [if_neg (fun hc => absurd (h2.symm.trans hc.2) (by decide))]
  · intro hok
    have hdb1 := classifyProblems_db_eq oracle updateFails db cache hn
    have hnone : ∀ r ∈ (classifyProblems oracle updateFails db cache).2.1,
        ¬ r.subject = none := by
      rw [hdb1]
      intro r hr
      rcases List.mem_map.mp hr with ⟨q, hq, rfl⟩
      unfold repairTransform
      by_cases hc : q.subject = none ∧ updateFails q.id = false
      · rw [if_pos hc]
        intro hcon
        exact Option.noConfusion hcon
      · rw [if_neg hc]
        intro hcon
        exact hc ⟨hcon, hok q hq hcon⟩
    have hfilter : ((classifyProblems oracle updateFails db cache).2.1.filter
        (fun p => p.subject = none)) = [] := by
      rw [List.filter_eq_nil_iff]
      intro r hr
      simpa using hnone r hr
    have hsecond := classifyProblems_of_no_unclassified oracle2 updateFails2
      (classifyProblems oracle updateFails db cache).2.1
      (classifyProblems oracle updateFails db cache).2.2 hfilter
    rw [hsecond]
    exact ⟨rfl, rfl⟩

/-- Witness for C9 at concrete inputs: one unclassified row is found and
repaired, the database is rewritten row-wise, and a second run processes
zero rows. -/
theorem C9_witness :
    ((classifyProblems (fun _ => Except.ok "History") (fun _ => false) dbW
      ({ cache := [] } : Cache Nat)).1.totalFound = 1) ∧
    ((classifyProblems (fun _ => Except.ok "History") (fun _ => false) dbW
      ({ cache := [] } : Cache Nat)).2.1 =
      dbW.map (repairTransform (fun _ => Except.ok "History") (fun _ => false))) ∧
    ((classifyProblems (fun _ => Except.ok "Economics") (fun _ => false)
        (classifyProblems (fun _ => Except.ok "History") (fun _ => false) dbW
          ({ cache := [] } : Cache Nat)).2.1
        (classifyProblems (fun _ => Except.ok "History") (fun _ => false) dbW
          ({ cache := [] } : Cache Nat)).2.2).1.processed = 0) := by
  have h := C9_batch_repair_contract (fun _ => Except.ok "History")
    (fun _ => Except.ok "Economics") (fun _ => false) (fun _ => false) dbW
    ({ cache := [] } : Cache Nat) (by decide)
  refine ⟨?_, h.2.2.1, (h.2.2.2.2.2 (fun q _ _ => rfl)).1⟩
  rw [h.1]
  decide

end TeamThirty
